import Mathlib

/-!
# Verification of the `number-types` numeric core

A shallow embedding of `src/class/MatrixSquare.class.ts` (the `MatrixSquare`
class and the `Percentage` class) together with the general `Matrix`
operations it delegates to.  JavaScript numbers are modelled exactly:
matrix cells are rationals (the spec's "finite numbers"; floating-point
rounding is outside the scope of the algebraic claims), and the
`Percentage` component, whose behaviour at `0` depends on IEEE-754 special
values, uses an explicit type `JSNum` of rationals extended with the IEEE
infinities and NaN.
-/

namespace NumberTypes

attribute [local semireducible] Rat.add Rat.mul Rat.inv Rat.sub

/-- A JavaScript number, modelled exactly: a rational (the literal `0` is
IEEE `+0`; rounding is not modelled) or one of the special values
`Infinity`, `-Infinity`, `NaN`. -/
inductive JSNum where
  | fin (q : ℚ)
  | posInf
  | negInf
  | nan
deriving DecidableEq, Repr

/-- JavaScript division `a / b` on `JSNum`, following IEEE-754 semantics
for exact operands: a finite number divided by `0` (i.e. `+0`) yields a
signed infinity, `0 / 0` yields `NaN`, and `NaN` propagates. -/
def jsDiv : JSNum → JSNum → JSNum
  | .nan, _ => .nan
  | _, .nan => .nan
  | .posInf, .posInf => .nan
  | .posInf, .negInf => .nan
  | .negInf, .posInf => .nan
  | .negInf, .negInf => .nan
  | .posInf, .fin b => if 0 ≤ b then .posInf else .negInf
  | .negInf, .fin b => if 0 ≤ b then .negInf else .posInf
  | .fin _, .posInf => .fin 0
  | .fin _, .negInf => .fin 0
  | .fin a, .fin b =>
      if b = 0 then
        if a = 0 then .nan else if 0 < a then .posInf else .negInf
      else .fin (a / b)

instance [DecidableEq ε] [DecidableEq α] : DecidableEq (Except ε α) := fun x y =>
  match x, y with
  | .ok a, .ok b =>
      if h : a = b then .isTrue (congrArg Except.ok h)
      else .isFalse (fun hh => h (Except.ok.inj hh))
  | .error a, .error b =>
      if h : a = b then .isTrue (congrArg Except.error h)
      else .isFalse (fun hh => h (Except.error.inj hh))
  | .ok _, .error _ => .isFalse (fun hh => Except.noConfusion hh)
  | .error _, .ok _ => .isFalse (fun hh => Except.noConfusion hh)

/-- JavaScript `Array.prototype.map((cell, j) => ...)`: map a function that
also receives the element's index. -/
def mapWithIndex (f : ℕ → α → β) : List α → List β
  | [] => []
  | a :: t => f 0 a :: mapWithIndex (fun i x => f (i + 1) x) t

/-- JavaScript `Array.prototype.reduce((a, b) => a + b)` (no initial value):
fold the list by addition starting from its first element.  The source only
applies it to non-empty arrays (cofactor expansion at size ≥ 2); the `[]`
case, unreachable there, is given the value `0`. -/
def reduceAdd : List ℚ → ℚ
  | [] => 0
  | a :: t => t.foldl (· + ·) a

/-! ## The general `Matrix` operations

`Matrix.class.ts` is not among the provided sources (only its subclass
`MatrixSquare` is), so the operations `MatrixSquare` delegates to are
modelled from the spec, §4.1, as pure functions on the raw grid
(a list of rows of rationals). -/

namespace Matrix

/-- Modelled from the spec: `Matrix.height`, "non-negative integers derived
from the stored grid at construction time" — the number of rows. -/
def height (data : List (List ℚ)) : ℕ :=
  data.length

/-- Modelled from the spec: `Matrix.width` — the common length of the rows
(the invariant "every row has exactly `width` elements"); derived from the
first row, `0` for an empty grid. -/
def width (data : List (List ℚ)) : ℕ :=
  (data.headD []).length

/-- Modelled from the spec: `Matrix.at(row, col)` "returns the cell value;
fails with an out-of-range error if `row ≥ height` or `col ≥ width`"
(`at` is a Lean keyword, hence the name `atCell`). -/
def atCell (data : List (List ℚ)) (row col : ℕ) : Except String ℚ :=
  if row < height data ∧ col < width data then
    .ok ((data.getD row []).getD col 0)
  else .error "Index out of range."

/-- Modelled from the spec: `Matrix.transposition` "returns a new Matrix of
dimensions `width × height` where cell `[i][j]` of the result equals cell
`[j][i]` of the source". -/
def transposition (data : List (List ℚ)) : List (List ℚ) :=
  (List.range (width data)).map (fun i => data.map (fun row => row.getD i 0))

/-- Modelled from the spec: `Matrix.minor(row, col)` "returns a new Matrix
formed by deleting the given row and the given column".  The out-of-range /
degenerate-matrix failure of the source is not modelled: every claim uses
in-range indices on non-empty matrices, where the source cannot fail. -/
def minor (row col : ℕ) (data : List (List ℚ)) : List (List ℚ) :=
  (data.eraseIdx row).map (fun r => r.eraseIdx col)

/-- Modelled from the spec: `Matrix.scale(scalar)` "returns a new Matrix
with every cell multiplied by `scalar`". -/
def scale (scalar : ℚ) (data : List (List ℚ)) : List (List ℚ) :=
  data.map (fun row => row.map (fun cell => cell * scalar))

/-- Modelled from the spec: `Matrix.times(other)`, matrix multiplication:
"cell `[i][j] = Σ_k this[i][k] * other[k][j]`", of dimensions
`this.height × other.width`.  The dimension-mismatch failure when
`this.width ≠ other.height` is not modelled: every claim multiplies
equal-sized square matrices, where the check passes. -/
def times (a b : List (List ℚ)) : List (List ℚ) :=
  a.map (fun row =>
    (List.range (width b)).map (fun j =>
      ((List.range (width a)).map (fun k => row.getD k 0 * (b.getD k []).getD j 0)).sum))

end Matrix

/-! ## The `MatrixSquare` class (from the source) -/

/-- The effect of `row.length = n` followed by `xjs.Array.fillHoles(row, 0)`
in the `MatrixSquare` constructor (src lines 49–52): the row is truncated to
`n` entries if longer, and extended with holes — filled with `0` per
`fillHoles`'s contract — if shorter. -/
def padTruncRow (n : ℕ) (row : List ℚ) : List ℚ :=
  row.take n ++ List.replicate (n - row.length) 0

/-- The grid normalisation performed by the `MatrixSquare` constructor:
every row is forced to length `rawdata.length` (src line 50's comment:
"add extra `undefined`s (if less) or removes extra entries (if more)"),
holes filled with `0`. -/
def squareData (data : List (List ℚ)) : List (List ℚ) :=
  data.map (padTruncRow data.length)

/-- A grid is square when every row's length equals the number of rows. -/
def isSquare (data : List (List ℚ)) : Prop :=
  ∀ r ∈ data, r.length = data.length

instance (data : List (List ℚ)) : Decidable (isSquare data) := by
  unfold isSquare; infer_instance

theorem padTruncRow_length (n : ℕ) (row : List ℚ) :
    (padTruncRow n row).length = n := by
  simp [padTruncRow]
  omega

theorem squareData_isSquare (data : List (List ℚ)) : isSquare (squareData data) := by
  intro r hr
  simp only [squareData, List.mem_map] at hr
  obtain ⟨row, _, rfl⟩ := hr
  simp [padTruncRow_length, squareData]

/-- A `MatrixSquare`: a grid satisfying the square invariant the
constructor establishes. -/
structure MatrixSquare where
  data : List (List ℚ)
  sq : isSquare data

namespace MatrixSquare

/-- The `MatrixSquare` constructor, src lines 45–54: normalises the grid
with `squareData`.  (The `Matrix` / `Vector` input variants only differ in
first copying the rows into plain arrays.) -/
def make (input : List (List ℚ)) : MatrixSquare :=
  ⟨squareData input, squareData_isSquare input⟩

/-- `size`, src lines 68–70: `this.height`. -/
def size (A : MatrixSquare) : ℕ :=
  Matrix.height A.data

/-- The raw grid built by `MatrixSquare.multIden`, src line 37:
`1` on the main diagonal (`i === j`), `0` elsewhere. -/
def idenData (n : ℕ) : List (List ℚ) :=
  (List.range n).map (fun i =>
    (List.range n).map (fun j => if i = j then (1 : ℚ) else 0))

/-- `MatrixSquare.multIden(size)`, src lines 35–38: the identity grid
passed to the constructor. -/
def multIden (n : ℕ) : MatrixSquare :=
  make (idenData n)

/-- `transposition`, src lines 60–62: `super.transposition as MatrixSquare`
— the general `Matrix` result is returned under a cast, not re-wrapped
through the `MatrixSquare` constructor, so the model returns the raw
delegated grid. -/
def transposition (A : MatrixSquare) : List (List ℚ) :=
  Matrix.transposition A.data

/-- `minor(row, col)`, src lines 113–115:
`new MatrixSquare(super.minor(row, col))`. -/
def minor (row col : ℕ) (A : MatrixSquare) : MatrixSquare :=
  make (Matrix.minor row col A.data)

/-- `scale(scalar)`, src lines 121–123:
`new MatrixSquare(super.scale(scalar))`. -/
def scale (scalar : ℚ) (A : MatrixSquare) : MatrixSquare :=
  make (Matrix.scale scalar A.data)

/-- `times(multiplier)`, src lines 129–131:
`new MatrixSquare(super.times(multiplier))`. -/
def times (A B : MatrixSquare) : MatrixSquare :=
  make (Matrix.times A.data B.data)

/-- The recursion of the `det` getter, src lines 84–86, with the matrix
size as the (structural) first argument: at size `1` the single cell
(`this.at(0n, 0n)`, in range for a square of size 1); at size ≥ 2 the
cofactor expansion along row 0, each minor re-wrapped through the
constructor exactly as `this.minor(0n, BigInt(j))` is, and summed by
`reduce((a, b) => a + b)`.  The size-`0` guard lives in `det` below; fuel
`0` is unreachable from it. -/
def detAux : ℕ → List (List ℚ) → ℚ
  | 0, _ => 0
  | 1, data => (data.getD 0 []).getD 0 0
  | n + 2, data =>
      reduceAdd (mapWithIndex (fun j cell =>
        (if j % 2 = 0 then (1 : ℚ) else -1) * cell *
          detAux (n + 1) (squareData (Matrix.minor 0 j data)))
        (data.getD 0 []))

/-- The `det` getter, src lines 77–87: throws on the empty matrix, else
recursive cofactor expansion along row 0. -/
def det (A : MatrixSquare) : Except String ℚ :=
  if A.size = 0 then .error "Determinant of an empty matrix is undefined."
  else .ok (detAux A.size A.data)

/-- The numeric value of the determinant for a non-empty `MatrixSquare`:
the rational `det` returns when it does not throw. -/
def detVal (A : MatrixSquare) : ℚ :=
  detAux A.size A.data

/-- The cofactor-of-the-transpose grid built inside `reciprocal`, src
lines 103–104: entry `(i, j)` is `(-1)^(i+j)` times the determinant of
`this.transposition.minor(i, j)` — the minor of the (cast, un-re-wrapped)
transposition, a square of size `size - 1 ≥ 1`, whose `det` getter cannot
throw. -/
def cofactorT (A : MatrixSquare) : List (List ℚ) :=
  mapWithIndex (fun i row =>
    mapWithIndex (fun j _ =>
      (if (i + j) % 2 = 0 then (1 : ℚ) else -1) *
        detAux (A.size - 1) (squareData (Matrix.minor i j (Matrix.transposition A.data))))
      row)
    A.data

/-- The `reciprocal` getter, src lines 98–107.  Note the guard
`if (this.det === 0)` evaluates the `det` getter first: for the empty
matrix `det` itself throws, so the `size === 0` arm below it is
unreachable. -/
def reciprocal (A : MatrixSquare) : Except String MatrixSquare :=
  match A.det with
  | .error e => .error e
  | .ok d =>
      if d = 0 then .error "A matrix whose determinant is 0 has no reciprocal."
      else if A.size = 0 then .ok (make [])
      else if A.size = 1 then .ok (make [[1 / d]])
      else .ok ((make (cofactorT A)).scale (1 / d))

end MatrixSquare

/-- The state of a caller-supplied plain row array after the `MatrixSquare`
constructor runs, src lines 45–52: a plain `number[]` row is passed through
`data.map` unchanged (only `Matrix` rows and `Vector`s are copied), and the
constructor then executes `row.length = rawdata.length` on that very array
— truncating it, or extending it with holes that `fillHoles` fills with
`0`. -/
def callerRowAfter (rowCount : ℕ) (row : List ℚ) : List ℚ :=
  padTruncRow rowCount row

/-! ## The `Percentage` class (from the source) -/

/-- A constructed `Percentage`: its underlying value is a finite (it is a
rational) non-negative number, exactly what the constructor's two
assertions let through. -/
def Percentage := {q : ℚ // 0 ≤ q}

instance : DecidableEq Percentage :=
  Subtype.instDecidableEq

namespace Percentage

/-- The underlying numeric value, `this.valueOf()`. -/
def val (p : Percentage) : ℚ :=
  p.1

/-- The `Percentage` constructor, src lines 214–219: unwraps the argument
to a plain value and asserts, in order, `non-negative` then `finite`
(`xjs.Number.assertType`, an external helper whose contract the spec
states: "fails with a domain error if the value is negative or
non-finite").  `NaN` fails the non-negative assertion (`0 <= NaN` is
false in JavaScript). -/
def make : JSNum → Except String Percentage
  | .fin q =>
      if h : q < 0 then .error "AssertionError: the number must be non-negative."
      else .ok ⟨q, le_of_not_lt h⟩
  | .posInf => .error "AssertionError: the number must be finite."
  | .negInf => .error "AssertionError: the number must be non-negative."
  | .nan => .error "AssertionError: the number must be non-negative."

/-- `Percentage.MULT_IDEN`, src line 168: `new Percentage(1)`. -/
def MULT_IDEN : Percentage :=
  ⟨1, by norm_num⟩

/-- `Percentage.MULT_ABSORB`, src line 170: `new Percentage()` — the
constructor's default argument is `0`. -/
def MULT_ABSORB : Percentage :=
  ⟨0, le_refl 0⟩

/-- The `conjugate` getter, src lines 231–234: throws a `RangeError` when
`this.valueOf() < 0 || 1 < this.valueOf()`, else constructs
`new Percentage(1 - this.valueOf())`. -/
def conjugate (p : Percentage) : Except String Percentage :=
  if p.val < 0 ∨ 1 < p.val then .error "RangeError: no conjugate exists."
  else make (.fin (1 - p.val))

/-- The `reciprocal` getter, src lines 243–245:
`new Percentage(Percentage.MULT_IDEN.valueOf() / this.valueOf())` — the
JavaScript division (which yields `Infinity` at `0`) is fed to the
constructor. -/
def reciprocal (p : Percentage) : Except String Percentage :=
  make (jsDiv (.fin MULT_IDEN.val) (.fin p.val))

end Percentage

/-- A sample constructed percentage, `new Percentage(0.5)`. -/
def pHalf : Percentage :=
  ⟨1 / 2, by norm_num⟩

/-- A sample constructed percentage above `100%`, `new Percentage(1.5)` —
valid to construct (the type's domain is `[0, ∞)`). -/
def pThreeHalves : Percentage :=
  ⟨3 / 2, by norm_num⟩

/-! ## General lemmas about the embedding -/

theorem reduceAdd_cons (a : ℚ) (t : List ℚ) :
    reduceAdd (a :: t) = a + t.sum := by
  show t.foldl (· + ·) a = a + t.sum
  induction t generalizing a with
  | nil => simp [reduceAdd]
  | cons b t ih =>
      simp only [List.foldl_cons, List.sum_cons, ih (a + b)]
      ring

theorem reduceAdd_eq_sum (l : List ℚ) : reduceAdd l = l.sum := by
  cases l with
  | nil => rfl
  | cons a t => simp [reduceAdd_cons]

theorem length_mapWithIndex (f : ℕ → α → β) (l : List α) :
    (mapWithIndex f l).length = l.length := by
  induction l generalizing f with
  | nil => rfl
  | cons a t ih => simp [mapWithIndex, ih]

theorem sum_mapWithIndex (l : List ℚ) (f : ℕ → ℚ → ℚ) :
    (mapWithIndex f l).sum = ∑ i ∈ Finset.range l.length, f i (l.getD i 0) := by
  induction l generalizing f with
  | nil => simp [mapWithIndex]
  | cons a t ih =>
      simp only [mapWithIndex, List.sum_cons, ih, List.length_cons,
        Finset.sum_range_succ']
      simp [add_comm]

theorem sum_mapWithIndex_zero (k : ℕ) (f : ℕ → ℚ → ℚ) (h : ∀ i, f i 0 = 0) :
    (mapWithIndex f (List.replicate k (0 : ℚ))).sum = 0 := by
  induction k generalizing f with
  | zero => simp [mapWithIndex]
  | succ k ih =>
      simp only [List.replicate_succ, mapWithIndex, List.sum_cons, h,
        ih _ (fun i => h (i + 1)), add_zero]

theorem squareData_eq_self {data : List (List ℚ)} (h : isSquare data) :
    squareData data = data := by
  unfold squareData
  conv_rhs => rw [← List.map_id data]
  refine List.map_congr_left (fun r hr => ?_)
  rw [padTruncRow, ← h r hr]
  simp

theorem squareData_length (data : List (List ℚ)) :
    (squareData data).length = data.length := by
  simp [squareData]

/-! ## Lemmas about the identity matrix -/

namespace MatrixSquare

theorem idenData_length (n : ℕ) : (idenData n).length = n := by
  simp [idenData]

theorem idenData_isSquare (n : ℕ) : isSquare (idenData n) := by
  intro r hr
  simp only [idenData, List.mem_map, List.mem_range] at hr
  obtain ⟨i, _, rfl⟩ := hr
  simp [idenData]

theorem multIden_data (n : ℕ) : (multIden n).data = idenData n :=
  squareData_eq_self (idenData_isSquare n)

theorem multIden_size (n : ℕ) : (multIden n).size = n := by
  simp [size, Matrix.height, multIden_data, idenData_length]

theorem idenData_head (n : ℕ) :
    (idenData (n + 2)).getD 0 [] = 1 :: List.replicate (n + 1) (0 : ℚ) := by
  have h2 : List.range (n + 2) = 0 :: (List.range (n + 1)).map Nat.succ :=
    List.range_succ_eq_map (n + 1)
  simp only [idenData, h2, List.map_cons, List.getD_cons_zero, List.map_map]
  have hz : ((fun j => if 0 = j then (1 : ℚ) else 0) ∘ Nat.succ) = fun _ => (0 : ℚ) := by
    funext j
    simp [Function.comp]
  rw [hz, List.map_const', List.length_range]
  simp

theorem minor_idenData (n : ℕ) :
    Matrix.minor 0 0 (idenData (n + 1)) = idenData n := by
  have h1 : List.range (n + 1) = 0 :: (List.range n).map Nat.succ :=
    List.range_succ_eq_map n
  simp only [Matrix.minor, idenData, h1, List.map_cons, List.eraseIdx_cons_zero,
    List.map_map]
  refine List.map_congr_left (fun i _ => ?_)
  simp only [Function.comp, List.map_cons, List.eraseIdx_cons_zero, List.map_map]
  refine List.map_congr_left (fun j _ => ?_)
  simp [Function.comp, Nat.succ_inj]

theorem detAux_idenData (n : ℕ) : detAux (n + 1) (idenData (n + 1)) = 1 := by
  induction n with
  | zero => decide
  | succ m ih =>
      show detAux (m + 2) (idenData (m + 2)) = 1
      simp only [detAux, idenData_head m, mapWithIndex]
      rw [reduceAdd_cons,
        show Matrix.minor 0 0 (idenData (m + 2)) = idenData (m + 1) from
          minor_idenData (m + 1),
        squareData_eq_self (idenData_isSquare (m + 1)), ih,
        List.sum_cons, mul_zero, zero_mul,
        sum_mapWithIndex_zero _ _ (fun i => by simp)]
      norm_num

theorem make_data (input : List (List ℚ)) : (make input).data = squareData input :=
  rfl

theorem make_size (input : List (List ℚ)) : (make input).size = input.length := by
  simp [size, Matrix.height, make, squareData_length]

theorem det_of_ne_zero {A : MatrixSquare} (h : A.size ≠ 0) :
    A.det = .ok (detVal A) := by
  simp [det, h, detVal]

theorem minor_size {A : MatrixSquare} (r c : ℕ) (h : r < A.size) :
    (A.minor r c).size = A.size - 1 := by
  simp only [minor, make_size, Matrix.minor, List.length_map]
  exact List.length_eraseIdx_of_lt h

theorem width_data (A : MatrixSquare) : Matrix.width A.data = A.data.length := by
  cases hd : A.data with
  | nil => simp [Matrix.width]
  | cons r t =>
      have hr := A.sq r (by rw [hd]; exact List.mem_cons_self r t)
      rw [hd] at hr
      simpa [Matrix.width] using hr

theorem row_zero_length {A : MatrixSquare} (h : A.size ≠ 0) :
    (A.data.getD 0 []).length = A.size := by
  cases hd : A.data with
  | nil =>
      exact absurd (by simp [size, Matrix.height, hd]) h
  | cons r t =>
      have hr := A.sq r (by rw [hd]; exact List.mem_cons_self r t)
      rw [hd] at hr
      simpa [size, Matrix.height, hd] using hr

theorem sign_eq (j : ℕ) : (if j % 2 = 0 then (1 : ℚ) else -1) = (-1 : ℚ) ^ j := by
  rcases Nat.even_or_odd j with h | h
  · rw [if_pos (Nat.even_iff.mp h), h.neg_one_pow]
  · rw [if_neg (by simp [Nat.odd_iff.mp h]), h.neg_one_pow]

theorem detVal_expansion {A : MatrixSquare} (h : 2 ≤ A.size) :
    detVal A = ∑ j ∈ Finset.range A.size,
      (-1 : ℚ) ^ j * ((A.data.getD 0 []).getD j 0) * detVal (A.minor 0 j) := by
  obtain ⟨k, hk⟩ : ∃ k, A.size = k + 2 := ⟨A.size - 2, by omega⟩
  have hrow : (A.data.getD 0 []).length = A.size := row_zero_length (by omega)
  unfold detVal
  rw [hk]
  simp only [detAux]
  rw [reduceAdd_eq_sum, sum_mapWithIndex, hrow, hk]
  refine Finset.sum_congr rfl (fun j _ => ?_)
  have hms : (A.minor 0 j).size = k + 1 := by
    rw [minor_size 0 j (by omega), hk]
    omega
  have hdata : (A.minor 0 j).data = squareData (Matrix.minor 0 j A.data) := rfl
  rw [sign_eq, hms, hdata]

theorem transposition_isSquare (A : MatrixSquare) : isSquare A.transposition := by
  intro row hr
  simp only [transposition, Matrix.transposition, List.mem_map] at hr
  obtain ⟨i, _, rfl⟩ := hr
  simp [transposition, Matrix.transposition, width_data]

theorem minor_raw_isSquare {A : MatrixSquare} (r c : ℕ) (hr : r < A.size)
    (hc : c < A.size) : isSquare (Matrix.minor r c A.data) := by
  intro row hrow
  simp only [Matrix.minor, List.mem_map] at hrow
  obtain ⟨x, hx, rfl⟩ := hrow
  have hxd : x ∈ A.data := (List.eraseIdx_sublist A.data r).subset hx
  have hxl : x.length = A.data.length := A.sq x hxd
  have hcx : c < x.length := by
    rw [hxl]
    exact hc
  simp only [Matrix.minor, List.length_map]
  rw [List.length_eraseIdx_of_lt hcx, List.length_eraseIdx_of_lt hr, hxl]

theorem scale_raw_isSquare (A : MatrixSquare) (s : ℚ) :
    isSquare (Matrix.scale s A.data) := by
  intro row hrow
  simp only [Matrix.scale, List.mem_map] at hrow
  obtain ⟨x, hx, rfl⟩ := hrow
  simp [Matrix.scale, A.sq x hx]

theorem times_raw_isSquare (A B : MatrixSquare) (h : B.size = A.size) :
    isSquare (Matrix.times A.data B.data) := by
  intro row hrow
  simp only [Matrix.times, List.mem_map] at hrow
  obtain ⟨x, _, rfl⟩ := hrow
  simp only [Matrix.times, List.length_map, List.length_range]
  rw [width_data B]
  exact h

end MatrixSquare

theorem padTruncRow_getD {n j : ℕ} (row : List ℚ) (hj : j < n) :
    (padTruncRow n row).getD j 0 =
      if j < row.length then row.getD j 0 else 0 := by
  by_cases hr : j < row.length
  · rw [if_pos hr]
    unfold padTruncRow
    rw [List.getD_eq_getElem?_getD,
      List.getElem?_append_left (by rw [List.length_take]; omega),
      List.getElem?_take_of_lt hj, ← List.getD_eq_getElem?_getD]
  · rw [if_neg hr]
    push_neg at hr
    unfold padTruncRow
    rw [List.getD_eq_getElem?_getD,
      List.getElem?_append_right (by rw [List.length_take]; omega),
      List.length_take]
    have hmin : min n row.length = row.length := by omega
    rw [hmin, List.getElem?_replicate_of_lt (by omega)]
    rfl

theorem squareData_getD {input : List (List ℚ)} {i : ℕ} (hi : i < input.length) :
    (squareData input).getD i [] = padTruncRow input.length (input.getD i []) := by
  have h1 : input[i]? = some input[i] := List.getElem?_eq_getElem hi
  unfold squareData
  rw [List.getD_eq_getElem?_getD, List.getElem?_map, h1,
    List.getD_eq_getElem?_getD, h1]
  rfl

theorem conjugate_of_le {p : Percentage} (hp : p.val ≤ 1) :
    Percentage.conjugate p = Except.ok ⟨1 - p.val, sub_nonneg.mpr hp⟩ := by
  have h0 : ¬ (p.val < 0 ∨ 1 < p.val) := by
    rintro (h | h)
    · exact absurd h (not_lt.mpr p.2)
    · exact absurd h (not_lt.mpr hp)
  rw [Percentage.conjugate, if_neg h0]
  simp only [Percentage.make]
  rw [dif_neg (not_lt.mpr (sub_nonneg.mpr hp))]

/-! ## The claims -/

/-- C1 (amended): whenever the `det` getter evaluates to `0`, `reciprocal`
fails with the singular-matrix type error; and for `size === 0`,
`reciprocal` also fails — with the determinant-of-the-empty-matrix type
error thrown by the `det` getter its guard evaluates first — rather than
returning the empty `MatrixSquare` (that arm of the code is unreachable). -/
theorem reciprocal_error_conditions :
    (∀ A : MatrixSquare, A.det = Except.ok 0 →
      A.reciprocal = Except.error "A matrix whose determinant is 0 has no reciprocal.") ∧
      (∀ A : MatrixSquare, A.size = 0 →
        A.reciprocal = Except.error "Determinant of an empty matrix is undefined.") := by
  constructor
  · intro A h
    simp [MatrixSquare.reciprocal, h]
  · intro A h
    have hd : A.det = Except.error "Determinant of an empty matrix is undefined." := by
      simp [MatrixSquare.det, h]
    simp [MatrixSquare.reciprocal, hd]

/-- Witness for `reciprocal_error_conditions`: the singular matrix
`[[1,1],[1,1]]` (determinant `0`) and the empty matrix. -/
theorem reciprocal_error_conditions_witness :
    ((MatrixSquare.make [[1, 1], [1, 1]]).det = Except.ok 0 ∧
      (MatrixSquare.make [[1, 1], [1, 1]]).reciprocal =
        Except.error "A matrix whose determinant is 0 has no reciprocal.") ∧
      ((MatrixSquare.make ([] : List (List ℚ))).size = 0 ∧
        (MatrixSquare.make ([] : List (List ℚ))).reciprocal =
          Except.error "Determinant of an empty matrix is undefined.") :=
  ⟨⟨by decide, reciprocal_error_conditions.1 _ (by decide)⟩,
    ⟨by decide, reciprocal_error_conditions.2 _ (by decide)⟩⟩

/-- C1, counterexample to the claim as stated: for the `MatrixSquare` of
size `0`, `reciprocal` does not return the empty `MatrixSquare` — it fails,
with the type error thrown by the `det` getter evaluated in its guard. -/
theorem reciprocal_empty_fails :
    Except.map MatrixSquare.data (MatrixSquare.make []).reciprocal =
        Except.error "Determinant of an empty matrix is undefined." ∧
      Except.map MatrixSquare.data (MatrixSquare.make []).reciprocal ≠
        Except.ok [] := by
  decide

/-- C2, counterexample to the claim as stated: on the zero `Percentage`,
`reciprocal` does raise an error: the division yields `Infinity`, and the
`Percentage` constructor's finiteness assertion rejects it. -/
theorem percentage_reciprocal_zero_fails :
    Percentage.reciprocal Percentage.MULT_ABSORB =
      Except.error "AssertionError: the number must be finite." := by
  decide

/-- C2 (amended): for the zero `Percentage`, the division `MULT_IDEN / p`
does produce an infinite value under standard floating-point semantics, but
`reciprocal` then fails with a domain error: the constructor it feeds the
quotient to asserts finiteness, which `Infinity` violates; no infinite
`Percentage` is returned. -/
theorem percentage_reciprocal_zero_spec :
    jsDiv (.fin Percentage.MULT_IDEN.val) (.fin Percentage.MULT_ABSORB.val) =
        JSNum.posInf ∧
      Percentage.reciprocal Percentage.MULT_ABSORB =
        Except.error "AssertionError: the number must be finite." := by
  decide

/-- C3: for the 2×2 `MatrixSquare` `[[1,2],[3,4]]`, `det` returns `-2`, and
`reciprocal` returns the matrix whose cells are `[[-2,1],[1.5,-0.5]]`
(`1.5 = 3/2` and `-0.5 = -1/2` exactly, in the source's double
arithmetic as well). -/
theorem det_reciprocal_concrete :
    (MatrixSquare.make [[1, 2], [3, 4]]).det = Except.ok (-2) ∧
      Except.map MatrixSquare.data (MatrixSquare.make [[1, 2], [3, 4]]).reciprocal =
        Except.ok [[-2, 1], [3 / 2, -1 / 2]] := by
  decide

/-- C8: the determinant of `MatrixSquare.multIden(n)` equals `1` for every
positive size `n`, and `det` of the 0×0 matrix `multIden(0)` throws the
undefined-operation type error. -/
theorem multIden_det_spec :
    (∀ n : ℕ, 1 ≤ n → (MatrixSquare.multIden n).det = Except.ok 1) ∧
      (MatrixSquare.multIden 0).det =
        Except.error "Determinant of an empty matrix is undefined." := by
  constructor
  · intro n hn
    obtain ⟨m, rfl⟩ : ∃ m, n = m + 1 := ⟨n - 1, by omega⟩
    have h1 : (MatrixSquare.multIden (m + 1)).size ≠ 0 := by
      rw [MatrixSquare.multIden_size]
      omega
    rw [MatrixSquare.det_of_ne_zero h1]
    unfold MatrixSquare.detVal
    rw [MatrixSquare.multIden_size, MatrixSquare.multIden_data,
      MatrixSquare.detAux_idenData]
  · simp [MatrixSquare.det, MatrixSquare.multIden_size]

/-- Witness for `multIden_det_spec`: the 3×3 identity matrix. -/
theorem multIden_det_spec_witness :
    1 ≤ 3 ∧ (MatrixSquare.multIden 3).det = Except.ok 1 :=
  ⟨by norm_num, multIden_det_spec.1 3 (by norm_num)⟩

/-- C4: `det` fails with a type error when `size === 0`; for `size === 1`
it returns the single cell's value; otherwise it is the cofactor expansion
along row 0 — the sum over `j` of `(-1)^j * cell[0][j] * minor(0, j).det`,
the sign starting positive at `j = 0`, each minor itself a `MatrixSquare`
of size `size - 1` (whose `det` therefore succeeds). -/
theorem det_cofactor_expansion :
    (∀ A : MatrixSquare, A.size = 0 →
      A.det = Except.error "Determinant of an empty matrix is undefined.") ∧
      (∀ A : MatrixSquare, A.size = 1 →
        A.det = Except.ok ((A.data.getD 0 []).getD 0 0)) ∧
      (∀ A : MatrixSquare, 2 ≤ A.size →
        (A.det = Except.ok (∑ j ∈ Finset.range A.size,
          (-1 : ℚ) ^ j * ((A.data.getD 0 []).getD j 0) *
            MatrixSquare.detVal (A.minor 0 j))) ∧
          (∀ j : ℕ, (A.minor 0 j).size = A.size - 1 ∧
            (A.minor 0 j).det = Except.ok (MatrixSquare.detVal (A.minor 0 j)))) := by
  refine ⟨fun A h => by simp [MatrixSquare.det, h], fun A h => ?_, fun A h => ?_⟩
  · rw [MatrixSquare.det_of_ne_zero (by omega)]
    unfold MatrixSquare.detVal
    rw [h]
    rfl
  · have hminor : ∀ j : ℕ, (A.minor 0 j).size = A.size - 1 :=
      fun j => MatrixSquare.minor_size 0 j (by omega)
    refine ⟨?_, fun j => ⟨hminor j, MatrixSquare.det_of_ne_zero (by rw [hminor j]; omega)⟩⟩
    rw [MatrixSquare.det_of_ne_zero (by omega), MatrixSquare.detVal_expansion h]

/-- Witness for `det_cofactor_expansion`: the empty matrix, the 1×1 matrix
`[[7]]` and the 2×2 matrix `[[1,2],[3,4]]`. -/
theorem det_cofactor_expansion_witness :
    ((MatrixSquare.make ([] : List (List ℚ))).size = 0 ∧
      (MatrixSquare.make ([] : List (List ℚ))).det =
        Except.error "Determinant of an empty matrix is undefined.") ∧
      ((MatrixSquare.make [[7]]).size = 1 ∧
        (MatrixSquare.make [[7]]).det =
          Except.ok (((MatrixSquare.make [[7]]).data.getD 0 []).getD 0 0)) ∧
      (2 ≤ (MatrixSquare.make [[1, 2], [3, 4]]).size ∧
        (MatrixSquare.make [[1, 2], [3, 4]]).det =
          Except.ok (∑ j ∈ Finset.range (MatrixSquare.make [[1, 2], [3, 4]]).size,
            (-1 : ℚ) ^ j *
              (((MatrixSquare.make [[1, 2], [3, 4]]).data.getD 0 []).getD j 0) *
              MatrixSquare.detVal ((MatrixSquare.make [[1, 2], [3, 4]]).minor 0 j))) :=
  ⟨⟨by decide, det_cofactor_expansion.1 _ (by decide)⟩,
    ⟨by decide, det_cofactor_expansion.2.1 _ (by decide)⟩,
    ⟨by decide, (det_cofactor_expansion.2.2 _ (by decide)).1⟩⟩

/-- C5: the constructor pads or truncates every row of the input grid to
length equal to the row count, fills missing trailing cells with `0`, and
every constructed `MatrixSquare` satisfies `height === width`. -/
theorem constructor_pads_rows :
    ∀ input : List (List ℚ),
      (MatrixSquare.make input).data.length = input.length ∧
        (∀ r ∈ (MatrixSquare.make input).data, r.length = input.length) ∧
        (∀ i j : ℕ, i < input.length → j < input.length →
          ((MatrixSquare.make input).data.getD i []).getD j 0 =
            if j < (input.getD i []).length then (input.getD i []).getD j 0 else 0) ∧
        Matrix.height (MatrixSquare.make input).data =
          Matrix.width (MatrixSquare.make input).data := by
  intro input
  refine ⟨by simp [MatrixSquare.make_data, squareData_length], fun r hr => ?_,
    fun i j hi hj => ?_, ?_⟩
  · rw [squareData_isSquare input r hr, squareData_length]
  · rw [MatrixSquare.make_data, squareData_getD hi, padTruncRow_getD _ hj]
  · rw [Matrix.height, MatrixSquare.width_data, MatrixSquare.make_data]

/-- Witness for `constructor_pads_rows`: the ragged grid `[[1,2,3],[4]]` —
cell `(1,1)` lies beyond the supplied second row `[4]`, so it reads `0`. -/
theorem constructor_pads_rows_witness :
    (1 : ℕ) < ([[1, 2, 3], [4]] : List (List ℚ)).length ∧
      ((MatrixSquare.make [[1, 2, 3], [4]]).data.getD 1 []).getD 1 0 =
        if 1 < (([[1, 2, 3], [4]] : List (List ℚ)).getD 1 []).length
        then (([[1, 2, 3], [4]] : List (List ℚ)).getD 1 []).getD 1 0 else 0 :=
  ⟨by decide, (constructor_pads_rows [[1, 2, 3], [4]]).2.2.1 1 1 (by decide) (by decide)⟩

/-- C6: `transposition`, `minor`, `scale` and `times` each delegate to the
general `Matrix` implementation; `minor`, `scale` and `times` wrap the raw
delegated result back through the `MatrixSquare` constructor without
changing it, and all four results (including the cast, un-re-wrapped
`transposition`) satisfy the square invariant. -/
theorem square_ops_closed :
    ∀ (A B : MatrixSquare) (r c : ℕ) (s : ℚ),
      isSquare A.transposition ∧
        (r < A.size → c < A.size →
          (A.minor r c).data = Matrix.minor r c A.data ∧
            isSquare (A.minor r c).data) ∧
        ((A.scale s).data = Matrix.scale s A.data ∧ isSquare (A.scale s).data) ∧
        (B.size = A.size →
          (A.times B).data = Matrix.times A.data B.data ∧
            isSquare (A.times B).data) := by
  intro A B r c s
  refine ⟨MatrixSquare.transposition_isSquare A, fun hr hc => ⟨?_, (A.minor r c).sq⟩,
    ⟨?_, (A.scale s).sq⟩, fun hB => ⟨?_, (A.times B).sq⟩⟩
  · rw [MatrixSquare.minor, MatrixSquare.make_data,
      squareData_eq_self (MatrixSquare.minor_raw_isSquare r c hr hc)]
  · rw [MatrixSquare.scale, MatrixSquare.make_data,
      squareData_eq_self (MatrixSquare.scale_raw_isSquare A s)]
  · rw [MatrixSquare.times, MatrixSquare.make_data,
      squareData_eq_self (MatrixSquare.times_raw_isSquare A B hB)]

/-- Witness for `square_ops_closed`: `A = [[1,2],[3,4]]`,
`B = [[5,6],[7,8]]`, `r = 0`, `c = 1`, `s = 3`. -/
theorem square_ops_closed_witness :
    isSquare (MatrixSquare.make [[1, 2], [3, 4]]).transposition ∧
      ((0 : ℕ) < (MatrixSquare.make [[1, 2], [3, 4]]).size ∧
        (1 : ℕ) < (MatrixSquare.make [[1, 2], [3, 4]]).size ∧
        ((MatrixSquare.make [[1, 2], [3, 4]]).minor 0 1).data =
          Matrix.minor 0 1 (MatrixSquare.make [[1, 2], [3, 4]]).data) ∧
      ((MatrixSquare.make [[5, 6], [7, 8]]).size =
          (MatrixSquare.make [[1, 2], [3, 4]]).size ∧
        ((MatrixSquare.make [[1, 2], [3, 4]]).times
            (MatrixSquare.make [[5, 6], [7, 8]])).data =
          Matrix.times (MatrixSquare.make [[1, 2], [3, 4]]).data
            (MatrixSquare.make [[5, 6], [7, 8]]).data) :=
  ⟨(square_ops_closed (MatrixSquare.make [[1, 2], [3, 4]])
      (MatrixSquare.make [[5, 6], [7, 8]]) 0 1 3).1,
    ⟨by decide, by decide,
      ((square_ops_closed (MatrixSquare.make [[1, 2], [3, 4]])
          (MatrixSquare.make [[5, 6], [7, 8]]) 0 1 3).2.1 (by decide) (by decide)).1⟩,
    ⟨by decide,
      ((square_ops_closed (MatrixSquare.make [[1, 2], [3, 4]])
          (MatrixSquare.make [[5, 6], [7, 8]]) 0 1 3).2.2.2 (by decide)).1⟩⟩

/-- C7, counterexample to the claim as stated: constructing a
`MatrixSquare` from the plain ragged grid `[[1,2,3],[4]]` (row count 2)
does not leave the caller's first row array unchanged: the constructor
executes `row.length = 2` on the caller's own array, truncating `[1,2,3]`
to `[1,2]`. -/
theorem constructor_mutates_caller_row :
    callerRowAfter 2 [1, 2, 3] = [1, 2] ∧
      callerRowAfter 2 [1, 2, 3] ≠ [1, 2, 3] := by
  decide

/-- C7 (amended): the constructor mutates a caller-supplied plain row array
exactly when its length differs from the row count (setting its `length`
truncates or zero-extends it in place); a plain row whose length already
equals the row count is left unchanged.  (Rows arriving inside a `Matrix`
or as `Vector`s are copied before the adjustment, so those callers' data is
untouched; the general-`Matrix` storage itself is immutable per the spec.) -/
theorem constructor_caller_row_effect :
    (∀ (n : ℕ) (row : List ℚ), row.length = n → callerRowAfter n row = row) ∧
      (∀ (n : ℕ) (row : List ℚ), row.length ≠ n → callerRowAfter n row ≠ row) := by
  constructor
  · intro n row h
    unfold callerRowAfter padTruncRow
    rw [← h]
    simp
  · intro n row h heq
    apply h
    have hl : (callerRowAfter n row).length = n := padTruncRow_length n row
    rw [heq] at hl
    exact hl

/-- Witness for `constructor_caller_row_effect`: the square-aligned row
`[1,2]` with row count 2 is untouched; the row `[1,2,3]` with row count 2
is changed. -/
theorem constructor_caller_row_effect_witness :
    (([1, 2] : List ℚ).length = 2 ∧ callerRowAfter 2 [1, 2] = [1, 2]) ∧
      (([1, 2, 3] : List ℚ).length ≠ 2 ∧
        callerRowAfter 2 [1, 2, 3] ≠ [1, 2, 3]) :=
  ⟨⟨by decide, constructor_caller_row_effect.1 2 [1, 2] (by decide)⟩,
    ⟨by decide, constructor_caller_row_effect.2 2 [1, 2, 3] (by decide)⟩⟩

/-- C9: for every `Percentage` with value at most `1` (every `Percentage`
is non-negative), `conjugate` succeeds and is an involution —
`p.conjugate.conjugate` equals `p`; and `conjugate` fails with a range
error for every `Percentage` whose value exceeds `1`, such as `1.5`. -/
theorem conjugate_involution :
    (∀ p : Percentage, p.val ≤ 1 →
      (Percentage.conjugate p).bind Percentage.conjugate = Except.ok p) ∧
      (∀ p : Percentage, 1 < p.val →
        Percentage.conjugate p = Except.error "RangeError: no conjugate exists.") := by
  constructor
  · intro p hp
    rw [conjugate_of_le hp]
    show Percentage.conjugate ⟨1 - p.val, _⟩ = Except.ok p
    rw [conjugate_of_le (by
      have h2 : (0 : ℚ) ≤ p.val := p.2
      show (1 : ℚ) - p.val ≤ 1
      linarith)]
    exact congrArg Except.ok (Subtype.ext (by show 1 - (1 - p.val) = p.val; ring))
  · intro p hp
    rw [Percentage.conjugate, if_pos (Or.inr hp)]

/-- Witness for `conjugate_involution`: `new Percentage(0.5)` (conjugate of
the conjugate is itself) and `new Percentage(1.5)` (conjugate throws). -/
theorem conjugate_involution_witness :
    (pHalf.val ≤ 1 ∧
      (Percentage.conjugate pHalf).bind Percentage.conjugate = Except.ok pHalf) ∧
      (1 < pThreeHalves.val ∧
        Percentage.conjugate pThreeHalves =
          Except.error "RangeError: no conjugate exists.") :=
  ⟨⟨by decide, conjugate_involution.1 pHalf (by decide)⟩,
    ⟨by decide, conjugate_involution.2 pThreeHalves (by decide)⟩⟩

/-- C10: the `valueOf() < 0` half of `conjugate`'s range check is
unreachable — every constructed `Percentage` is non-negative (and finite),
as the constructor's assertions enforce — so `conjugate` throws exactly
when the value is strictly greater than `1`. -/
theorem conjugate_error_iff :
    ∀ p : Percentage, ¬ (p.val < 0) ∧
      ((∃ e, Percentage.conjugate p = Except.error e) ↔ 1 < p.val) := by
  intro p
  refine ⟨not_lt.mpr p.2, ⟨fun ⟨e, he⟩ => ?_, fun h => ?_⟩⟩
  · by_contra h
    push_neg at h
    rw [conjugate_of_le h] at he
    exact Except.noConfusion he
  · exact ⟨"RangeError: no conjugate exists.",
      by rw [Percentage.conjugate, if_pos (Or.inr h)]⟩

end NumberTypes
